import Mathlib

/-!
Shallow embedding of the goodeggs/agent container monitor
(`containers.go`, `monitor.go`): the event dispatcher, lifecycle
handlers, log-subscription retry loop, line parser/router and the
batched stream forwarder, with theorems checking the specification's
claims against the embedded code.

Go strings are modelled as Lean `String` (lists of characters; the
agent only manipulates ASCII identifiers and log text, where Go's
byte indexing and character indexing agree).  A Go runtime panic
(out-of-range slice, nil dereference) is modelled as `none` /
`Option`-valued results.
-/

namespace Agent

/-! ### Go standard-library helpers -/

/-- Go slice `s[0:n]`: panics (`none`) when `n` exceeds the length. -/
def sliceTo (s : String) (n : Nat) : Option String :=
  if n ≤ s.data.length then some ⟨s.data.take n⟩ else none

/-- Go slice `s[0:len(s)-1]` (`parseAndForwardLine` line 400): on the
empty string `len(s)-1` underflows and the slice panics (`none`). -/
def dropLastChar (s : String) : Option String :=
  if s.data.length = 0 then none else some ⟨s.data.dropLast⟩

/-- Split a character list at the first occurrence of `c`; `none`
when `c` does not occur. -/
def breakAtChar (c : Char) : List Char → Option (List Char × List Char)
  | [] => none
  | x :: xs =>
    if x = c then some ([], xs)
    else (breakAtChar c xs).map (fun p => (x :: p.1, p.2))

/-- Go `strings.SplitN(s, sep, 2)` for a one-character separator (the
source only splits on `" "`, `"="` and `":"`): at most two pieces,
split at the first occurrence. -/
def splitN2 (s : String) (c : Char) : List String :=
  match breakAtChar c s.data with
  | none => [s]
  | some (a, b) => [⟨a⟩, ⟨b⟩]

def splitOnCharAux (c : Char) : List Char → List Char → List (List Char)
  | [], acc => [acc.reverse]
  | x :: xs, acc =>
    if x = c then acc.reverse :: splitOnCharAux c xs []
    else splitOnCharAux c xs (x :: acc)

/-- Go `strings.Split(s, sep)` for a one-character separator (the
source only splits on `"-"`). -/
def splitOnChar (c : Char) (s : String) : List String :=
  (splitOnCharAux c s.data []).map (fun l => ⟨l⟩)

/-- Go `strings.Join(parts, sep)`. -/
def joinWith (sep : String) : List String → String
  | [] => ""
  | [x] => x
  | x :: y :: xs => x ++ sep ++ joinWith sep (y :: xs)

def listHasPrefixOf : List Char → List Char → Bool
  | _, [] => true
  | [], _ :: _ => false
  | c :: cs, p :: ps => c = p && listHasPrefixOf cs ps

/-- Go `strings.HasPrefix(s, pre)`. -/
def hasPrefixOf (s pre : String) : Bool :=
  listHasPrefixOf s.data pre.data

/-- Association-list lookup modelling a Go map read. -/
def lookupA {α : Type} : List (String × α) → String → Option α
  | [], _ => none
  | (k, v) :: rest, key => if k = key then some v else lookupA rest key

/-- A container's captured environment (`map[string]string`). -/
abbrev EnvMap := List (String × String)

/-- Go map read `env[k]` on a `map[string]string`: the zero value `""`
when the key is absent (also when the whole map is `nil`). -/
def envGet (env : EnvMap) (k : String) : String :=
  (lookupA env k).getD ""

/-- `handleCreate` lines 149-155: each `KEY=VALUE` entry of
`container.Config.Env` split with `strings.SplitN(e, "=", 2)`;
malformed entries are skipped, later duplicates win. -/
def parseEnvEntries (entries : List String) : EnvMap :=
  entries.foldl
    (fun acc e =>
      match splitN2 e '=' with
      | [k, v] => (k, v) :: acc
      | _ => acc)
    []

/-! ### Timestamps (`time.Time`, `time.Parse(time.RFC3339Nano, ·)`) -/

/-- A parsed wall-clock instant; `offMinutes` is the zone offset in
minutes (`0` for `Z`). -/
structure Timestamp where
  year : Nat
  month : Nat
  day : Nat
  hour : Nat
  minute : Nat
  second : Nat
  nanos : Nat
  offMinutes : Int
deriving DecidableEq

def digToNat (c : Char) : Nat := c.toNat - 48

/-- Read exactly `n` decimal digits (Go fixed-width numeric layout
fields such as `2006`, `01`, `04`). -/
def readFixed : Nat → Nat → List Char → Option (Nat × List Char)
  | 0, acc, cs => some (acc, cs)
  | _ + 1, _, [] => none
  | n + 1, acc, c :: cs =>
    if c.isDigit then readFixed n (acc * 10 + digToNat c) cs else none

/-- Require the literal character `c` next. -/
def readLit (c : Char) : List Char → Option (List Char)
  | [] => none
  | x :: xs => if x = c then some xs else none

def digitsVal (ds : List Char) : Nat :=
  ds.foldl (fun acc c => acc * 10 + digToNat c) 0

/-- Optional fractional seconds (layout `.999999999`): either absent,
or a dot followed by 1..9 digits, scaled to nanoseconds. -/
def readFrac : List Char → Option (Nat × List Char)
  | '.' :: rest =>
    let ds := rest.takeWhile Char.isDigit
    let rest2 := rest.dropWhile Char.isDigit
    if ds.length = 0 ∨ 9 < ds.length then none
    else some (digitsVal ds * 10 ^ (9 - ds.length), rest2)
  | cs => some (0, cs)

/-- Zone suffix (layout `Z07:00`): `Z` or `±hh:mm`, in minutes. -/
def readZone : List Char → Option (Int × List Char)
  | 'Z' :: rest => some (0, rest)
  | '+' :: rest => do
    let (h, r1) ← readFixed 2 0 rest
    let r2 ← readLit ':' r1
    let (m, r3) ← readFixed 2 0 r2
    some ((h * 60 + m : Nat), r3)
  | '-' :: rest => do
    let (h, r1) ← readFixed 2 0 rest
    let r2 ← readLit ':' r1
    let (m, r3) ← readFixed 2 0 r2
    some (-((h * 60 + m : Nat) : Int), r3)
  | _ => none

def isLeapYear (y : Nat) : Bool :=
  y % 4 = 0 && (y % 100 ≠ 0 || y % 400 = 0)

def daysInMonth (y m : Nat) : Nat :=
  if m = 2 then (if isLeapYear y then 29 else 28)
  else if m = 4 ∨ m = 6 ∨ m = 9 ∨ m = 11 then 30
  else 31

/-- `time.Parse(time.RFC3339Nano, s)` (layout
`2006-01-02T15:04:05.999999999Z07:00`): fixed-width date and time
fields, optional nanosecond fraction, `Z` or numeric zone, whole
input consumed, components range-checked.  `none` models the parse
error. -/
def parseRFC3339Nano (s : String) : Option Timestamp := do
  let cs := s.data
  let (y, cs) ← readFixed 4 0 cs
  let cs ← readLit '-' cs
  let (mo, cs) ← readFixed 2 0 cs
  let cs ← readLit '-' cs
  let (d, cs) ← readFixed 2 0 cs
  let cs ← readLit 'T' cs
  let (h, cs) ← readFixed 2 0 cs
  let cs ← readLit ':' cs
  let (mi, cs) ← readFixed 2 0 cs
  let cs ← readLit ':' cs
  let (sec, cs) ← readFixed 2 0 cs
  let (ns, cs) ← readFrac cs
  let (off, cs) ← readZone cs
  if cs = [] ∧ 1 ≤ mo ∧ mo ≤ 12 ∧ 1 ≤ d ∧ d ≤ daysInMonth y mo ∧
      h ≤ 23 ∧ mi ≤ 59 ∧ sec ≤ 59 then
    some ⟨y, mo, d, h, mi, sec, ns, off⟩
  else none

def pad2 (n : Nat) : String :=
  if n < 10 then "0" ++ toString n else toString n

def pad4 (n : Nat) : String :=
  if n < 10 then "000" ++ toString n
  else if n < 100 then "00" ++ toString n
  else if n < 1000 then "0" ++ toString n
  else toString n

/-- Go `ts.Format("2006-01-02 15:04:05")` (legacy Kinesis line
timestamp). -/
def formatTsLegacy (t : Timestamp) : String :=
  pad4 t.year ++ "-" ++ pad2 t.month ++ "-" ++ pad2 t.day ++ " " ++
    pad2 t.hour ++ ":" ++ pad2 t.minute ++ ":" ++ pad2 t.second

/-! ### Monitor state (the Registry, `monitor.go`) -/

/-- A per-container structured-sink handle (`logger.Logger`); the
embedding only tracks its identity. -/
abbrev LoggerHandle := Nat

/-- The lock-guarded mutable state of `Monitor` that the container
code touches: `envs`, `loggers`, and the agent's self-identity.
Map writes are modelled by prepending to an association list (the
observable behaviour through `lookupA` matches a Go map update). -/
structure MState where
  envs : List (String × EnvMap)
  loggers : List (String × LoggerHandle)
  agentId : String
  agentImage : String
  agentVersion : String
deriving DecidableEq

/-- `NewMonitor`'s initial values for the fields above. -/
def initialMonitor : MState :=
  { envs := [], loggers := [], agentId := "unknown",
    agentImage := "convox/agent:dev", agentVersion := "dev" }

/-- `m.getEnv(id)`: the `(env, ok)` pair as an `Option`. -/
def getEnv (st : MState) (id : String) : Option EnvMap :=
  lookupA st.envs id

/-- `m.getLogger(id)` as an `Option`. -/
def getLogger (st : MState) (id : String) : Option LoggerHandle :=
  lookupA st.loggers id

/-! ### Lifecycle handlers (`containers.go`) -/

/-- What `client.InspectContainer(id)` returned; `ok` carries
`container.Config.Env`. -/
inductive InspectResult where
  | ok (env : List String)
  | err (e : String)
deriving DecidableEq

/-- Observable outcome of one `handleCreate` call. -/
structure CreateResult where
  state : MState
  inspectErrLogged : Bool
  sinkOpened : Bool
  appMsg : Option String
deriving DecidableEq

/-- `handleCreate` (lines 138-176): inspect the container; on error
log and return with the Registry untouched; otherwise capture the
env (`setEnv`), open the per-container sink when `LOG_GROUP` is set
(`StartAWSLogger` / `setLogger`, its outcome supplied as `aws`), and
emit the "Starting ... process id[0:12]" app event.  `none` models
the `id[0:12]` panic on an id shorter than 12 characters. -/
def handleCreate (st : MState) (id : String) (ins : InspectResult)
    (aws : Except String LoggerHandle) : Option CreateResult :=
  match ins with
  | .err _ => some ⟨st, true, false, none⟩
  | .ok entries =>
    let env := parseEnvEntries entries
    let st1 : MState := { st with envs := (id, env) :: st.envs }
    let stOpened : MState × Bool :=
      if envGet env "LOG_GROUP" ≠ "" then
        match aws with
        | .error _ => (st1, false)
        | .ok h => ({ st1 with loggers := (id, h) :: st1.loggers }, true)
      else (st1, false)
    match sliceTo id 12 with
    | none => none
    | some short =>
      let p := envGet env "PROCESS"
      let msg :=
        if p ≠ "" then "Starting " ++ p ++ " process " ++ short
        else "Starting process " ++ short
      some ⟨stOpened.1, false, stOpened.2, some msg⟩

/-- `handleDie` (lines 178-194): format the app-event message; `none`
models the unguarded `id[0:12]` panic. -/
def handleDie (st : MState) (id : String) : Option String :=
  match sliceTo id 12 with
  | none => none
  | some short =>
    match getEnv st id with
    | some env =>
      let p := envGet env "PROCESS"
      if p ≠ "" then some ("Dead " ++ p ++ " process " ++ short)
      else some ("Dead process " ++ short)
    | none => some ("Dead process " ++ short)

/-- `handleKill` (lines 196-208). -/
def handleKill (st : MState) (id : String) : Option String :=
  match sliceTo id 12 with
  | none => none
  | some short =>
    match getEnv st id with
    | some env =>
      let p := envGet env "PROCESS"
      if p ≠ "" then
        some ("Stopped " ++ p ++ " process " ++ short ++ " via SIGKILL")
      else some ("Stopped process " ++ short ++ " via SIGKILL")
    | none => some ("Stopped process " ++ short ++ " via SIGKILL")

/-- `handleOom` (lines 210-222). -/
def handleOom (st : MState) (id : String) : Option String :=
  match sliceTo id 12 with
  | none => none
  | some short =>
    match getEnv st id with
    | some env =>
      let p := envGet env "PROCESS"
      if p ≠ "" then
        some ("Stopped " ++ p ++ " process " ++ short ++ " due to OOM")
      else some ("Stopped process " ++ short ++ " due to OOM")
    | none => some ("Stopped process " ++ short ++ " due to OOM")

/-- `handleStop` (lines 240-252). -/
def handleStop (st : MState) (id : String) : Option String :=
  match sliceTo id 12 with
  | none => none
  | some short =>
    match getEnv st id with
    | some env =>
      let p := envGet env "PROCESS"
      if p ≠ "" then
        some ("Stopped " ++ p ++ " process " ++ short ++ " via SIGTERM")
      else some ("Stopped process " ++ short ++ " via SIGTERM")
    | none => some ("Stopped process " ++ short ++ " via SIGTERM")

/-- The subscription decision in `handleStart` (lines 229-235):
`subscribeLogs(id)` is invoked exactly when the id differs from the
recorded agent id, the Registry holds a captured env for it, and
that env declares a `LOG_GROUP`. -/
def handleStartSubscribes (st : MState) (id : String) : Bool :=
  if id ≠ st.agentId then
    match getEnv st id with
    | some env => envGet env "LOG_GROUP" != ""
    | none => false
  else false

/-! ### Startup inventory (`handleRunning`, lines 42-74) -/

/-- One entry of `client.ListContainers`. -/
structure ContainerSummary where
  id : String
  image : String
deriving DecidableEq

/-- The agent-self test (line 54). -/
def isAgentImage (img : String) : Bool :=
  hasPrefixOf img "goodeggs/convox-agent" || hasPrefixOf img "agent/agent"

/-- `handleRunning`: walk the running containers; a container whose
image is the agent's records the agent identity (id, image, version
from the image tag) and is skipped; every other container is handled
with a synchronous `handleCreate` followed by `handleStart` (spawned
as a goroutine; its subscription decision is modelled at dispatch).
`inspect`/`aws` supply the runtime's per-container answers.  Returns
the final state and the ids for which `subscribeLogs` was started;
`none` models a panic inside `handleCreate`. -/
def handleRunning (st : MState) (cs : List ContainerSummary)
    (inspect : String → InspectResult)
    (aws : String → Except String LoggerHandle) :
    Option (MState × List String) :=
  match cs with
  | [] => some (st, [])
  | c :: rest =>
    if isAgentImage c.image then
      let version :=
        match splitN2 c.image ':' with
        | [_, v] => v
        | _ => st.agentVersion
      handleRunning
        { st with agentId := c.id, agentImage := c.image,
                  agentVersion := version }
        rest inspect aws
    else
      match handleCreate st c.id (inspect c.id) (aws c.id) with
      | none => none
      | some r =>
        let sub := handleStartSubscribes r.state c.id
        match handleRunning r.state rest inspect aws with
        | none => none
        | some (st2, subs) =>
          some (st2, (if sub then [c.id] else []) ++ subs)

/-! ### Event dispatch loop (`handleEvents`, lines 98-134) -/

inductive EventKind where
  | create
  | die
  | kill
  | oom
  | start
  | stop
  | other (s : String)
deriving DecidableEq

structure DockerEvent where
  id : String
  kind : EventKind
deriving DecidableEq

/-- One dequeued event together with the runtime's answers should the
handler consult it. -/
structure TraceStep where
  event : DockerEvent
  inspect : InspectResult
  aws : Except String LoggerHandle

/-- One iteration of the dispatch loop: `create` runs `handleCreate`
synchronously before the next event is dequeued; every other kind is
dispatched as a concurrent task (`go m.handleDie` …) — and none of
those handlers writes `envs` or `loggers` (they only read the
Registry and format messages; `subscribeLogs` only `Close`s an
already-stored handle), so the Registry state carried by the loop
changes only through `create`.  `none` models a panic inside the
synchronous `handleCreate`. -/
def dispatchStep (st : MState) (s : TraceStep) : Option MState :=
  match s.event.kind with
  | .create => (handleCreate st s.event.id s.inspect s.aws).map CreateResult.state
  | _ => some st

/-- The dispatch loop over a finite event trace. -/
def dispatchEvents (st : MState) : List TraceStep → Option MState
  | [] => some st
  | s :: rest =>
    match dispatchStep st s with
    | none => none
    | some st1 => dispatchEvents st1 rest

/-! ### Log subscription retry loop (`subscribeLogs`, lines 287-342) -/

/-- Outcome of the `InspectContainer` call made after each
follower/reader pair terminates (line 305). -/
inductive InspectOutcome where
  | ok (running : Bool)
  | noSuchContainer (e : String)
  | otherErr (e : String)
deriving DecidableEq

/-- Observable trace of the retry loop: `DockerLogsRetry` metric
count, `ReportError` calls (most recent first in arrival order), and
whether the loop exited (`break retry`) or the supplied outcomes ran
out with the subscription still live. -/
structure SubResult where
  retries : Nat
  reports : List String
  closedLoop : Bool
deriving DecidableEq

/-- The `retry:` loop, one iteration per inspect outcome:
running → count a retry and reconnect; not running → `break retry`;
`NoSuchContainer` → report and `break retry`; any other error →
report, count a retry, and reconnect anyway. -/
def subLoop : List InspectOutcome → SubResult
  | [] => ⟨0, [], false⟩
  | .ok true :: rest =>
    let t := subLoop rest
    ⟨t.retries + 1, t.reports, t.closedLoop⟩
  | .ok false :: _ => ⟨0, [], true⟩
  | .noSuchContainer e :: _ => ⟨0, [e], true⟩
  | .otherErr e :: rest =>
    let t := subLoop rest
    ⟨t.retries + 1, e :: t.reports, t.closedLoop⟩

/-- `subscribeLogs` for one container: run the retry loop, then — only
after the loop has exited — close the per-container sink handle if
one is open (lines 331-339).  The second component records whether
the handle was closed. -/
def subscribeLogs (loggerPresent : Bool) (outs : List InspectOutcome) :
    SubResult × Bool :=
  let t := subLoop outs
  (t, t.closedLoop && loggerPresent)

/-! ### Line parser / router (`parseAndForwardLine`, lines 399-462) -/

/-- One `logger.Message` written to the per-container structured
sink. -/
structure SinkMessage where
  containerId : String
  line : String
  timestamp : Timestamp
deriving DecidableEq

/-- The app-name fallback block (lines 418, 425-438): prefer `APP`;
otherwise split `LOG_GROUP` (or, when it is empty, `KINESIS`) on
dashes and, when more than two segments result, join all but the
last two. -/
def resolveApp (env : EnvMap) : String :=
  let app := envGet env "APP"
  if app = "" then
    let logGroup := envGet env "LOG_GROUP"
    let logResource := if logGroup = "" then envGet env "KINESIS" else logGroup
    let parts := splitOnChar '-' logResource
    if parts.length > 2 then joinWith "-" (parts.take (parts.length - 2))
    else app
  else app

/-- Lines 403-414: attempt to split off a leading RFC3339Nano
timestamp token at the first space; on failure (logged) or when the
line has no space, fall back to the receipt time `now` and leave the
line unsplit.  Returns `(timestamp, line, parseErrorLogged)`. -/
def splitTsLine (now : Timestamp) (line0 : String) :
    Timestamp × String × Bool :=
  match splitN2 line0 ' ' with
  | [p0, p1] =>
    match parseRFC3339Nano p0 with
    | none => (now, line0, true)
    | some t => (t, p1, false)
  | _ => (now, line0, false)

/-- Observable result of routing one line. -/
structure RouteResult where
  tsUsed : Timestamp
  msgLine : String
  app : String
  formatted : String
  parseErrLogged : Bool
  sinkWrite : Option SinkMessage
  kinesisAppend : Option (String × String)
deriving DecidableEq

/-- The body of `parseAndForwardLine` after the newline strip: split
off a leading RFC3339Nano timestamp at the first space (falling back
to the receipt time `now` with the line left unsplit), resolve the
app name, format `"process:release/id[0:12] line"`, write to the
per-container sink when one is open, and append the legacy-stamped
copy to the Stream Buffer when `KINESIS` is set.  `none` models the
unguarded `id[0:12]` panic (line 445). -/
def routeLine (now : Timestamp) (env : EnvMap) (loggerPresent : Bool)
    (id line0 : String) : Option RouteResult :=
  let step1 := splitTsLine now line0
  let ts := step1.1
  let line := step1.2.1
  let perr := step1.2.2
  let app := resolveApp env
  match sliceTo id 12 with
  | none => none
  | some short =>
    let process := envGet env "PROCESS"
    let release := envGet env "RELEASE"
    let l := process ++ ":" ++ release ++ "/" ++ short ++ " " ++ line
    let sink := if loggerPresent then some (⟨id, l, ts⟩ : SinkMessage) else none
    let k := envGet env "KINESIS"
    let kin := if k ≠ "" then some (k, formatTsLegacy ts ++ " " ++ l) else none
    some ⟨ts, line, app, l, perr, sink, kin⟩

/-- `parseAndForwardLine` (lines 399-462): trim the final character
(`line[0:len(line)-1]`, intended for the trailing newline from
`ReadString`) — a panic (`none`) on the empty string — then route
the remainder. -/
def parseAndForwardLine (now : Timestamp) (env : EnvMap)
    (loggerPresent : Bool) (id rawLine : String) : Option RouteResult :=
  match dropLastChar rawLine with
  | none => none
  | some line0 => routeLine now env loggerPresent id line0

/-! ### Stream Buffer and Batched Forwarder
(`addLine`/`getLines`/`streamLogs`, lines 491-534, 566-592) -/

/-- One buffered outbound line (`[]byte`). -/
abbrev Data := String

/-- `addLine(stream, data)` restricted to one stream's queue:
append at the tail. -/
def addLine (l : List Data) (d : Data) : List Data := l ++ [d]

/-- `getLines(stream)` restricted to one stream's queue: `nil`
(`none`) when empty, otherwise remove and return the oldest
`min(len, 500)` entries, leaving the rest. -/
def getLines (l : List Data) : Option (List Data) × List Data :=
  if l.length = 0 then (none, l)
  else (some (l.take (if l.length > 500 then 500 else l.length)),
        l.drop (if l.length > 500 then 500 else l.length))

/-- Iterated drains of a buffer receiving no further writes. -/
def drainN : Nat → List Data → List Data
  | 0, l => l
  | n + 1, l => drainN n (getLines l).2

/-- One `kinesis.PutRecordsResultEntry`. -/
structure KRecord where
  errorCode : Option String
  errorMessage : Option String
deriving DecidableEq

/-- Modelled from the spec: the batch ingestion sink interface
`putBatch(streamName, records) -> [{errorCode?, errorMessage?}] | error`
(§6) — the vendored client implementing `Kinesis.PutRecords` is not
under `src/`, so the submission either yields the per-record result
list or fails with a transport error carrying no result list. -/
inductive PutOutcome where
  | ok (records : List KRecord)
  | err (e : String)

/-- The per-record error scan (lines 519-527): count flagged records
and keep the last flagged record's `"code - message"` text.  The
`*r.ErrorCode` / `*r.ErrorMessage` dereferences are unguarded:
`none` models the nil-pointer panic when a flagged record carries no
message. -/
def recordErrLoop : List KRecord → Nat → String → Option (Nat × String)
  | [], cnt, msg => some (cnt, msg)
  | r :: rs, cnt, msg =>
    match r.errorCode with
    | none => recordErrLoop rs cnt msg
    | some c =>
      match r.errorMessage with
      | none => none
      | some m => recordErrLoop rs (cnt + 1) (c ++ " - " ++ m)

/-- Observable outcome of one `streamLogs` tick on one stream. -/
structure TickResult where
  newBuf : List Data
  submitted : Option (List Data)
  errorCount : Nat
  total : Nat
  lastErrMsg : Option String
deriving DecidableEq

/-- One `streamLogs` tick for one stream (lines 495-532): drain the
buffer (`continue` when empty), submit the batch, then scan the
per-record results.  On a transport error the code logs
`KinesisPutRecordsError` but does **not** `continue`: it falls
through to `res.Records` with the result absent — `none` models that
panic.  Failed records are only counted; nothing is re-queued. -/
def streamLogsTick (buf : List Data) (put : List Data → PutOutcome) :
    Option TickResult :=
  match getLines buf with
  | (none, rest) => some ⟨rest, none, 0, 0, none⟩
  | (some l, rest) =>
    match put l with
    | .err _ => none
    | .ok records =>
      match recordErrLoop records 0 "" with
      | none => none
      | some (cnt, msg) =>
        some ⟨rest, some l, cnt, records.length,
              if cnt > 0 then some msg else none⟩

/-! ## Theorems -/

/-! ### Helper lemmas -/

lemma getLines_empty : getLines [] = (none, []) := rfl

lemma getLines_snd_shorter (l : List Data) (h : l ≠ []) :
    (getLines l).2.length < l.length := by
  have hl : l.length ≠ 0 := by
    simpa [List.length_eq_zero] using h
  unfold getLines
  rw [if_neg hl]
  simp only [List.length_drop]
  split <;> omega

lemma drainN_exhaust : ∀ (k : Nat) (l : List Data), l.length ≤ k → drainN k l = [] := by
  intro k
  induction k with
  | zero =>
    intro l hl
    have : l = [] := List.eq_nil_of_length_eq_zero (Nat.le_zero.mp hl)
    simpa [drainN] using this
  | succ k ih =>
    intro l hl
    by_cases h : l = []
    · subst h
      show drainN k (getLines []).2 = []
      rw [getLines_empty]
      exact ih [] (by simp)
    · have hlt := getLines_snd_shorter l h
      show drainN k (getLines l).2 = []
      exact ih _ (by omega)

/-- Claim C2: after a follower/reader pair terminates, the three
`InspectContainer` outcomes behave as specified — (1) container
still running: one `DockerLogsRetry` is counted, nothing reported,
the loop reconnects and the sink handle is not closed at that step;
(2) `NoSuchContainer`: the error is reported and the loop closes
without consuming further reconnect rounds; (3) any other inspect
error: the error is reported, a retry is counted, and the loop
reconnects anyway; the not-running outcome closes the loop silently;
and the per-container sink handle is closed exactly when the loop
has reached `Closed` and a handle is open. -/
theorem subscribeLogsReconcileOutcomes :
    ∀ (rest outs : List InspectOutcome) (e : String) (lp : Bool),
      subLoop (.ok true :: rest) =
        ⟨(subLoop rest).retries + 1, (subLoop rest).reports,
          (subLoop rest).closedLoop⟩
      ∧ (subscribeLogs lp (.ok true :: rest)).2 = (subscribeLogs lp rest).2
      ∧ subLoop (.noSuchContainer e :: rest) = ⟨0, [e], true⟩
      ∧ subLoop (.otherErr e :: rest) =
          ⟨(subLoop rest).retries + 1, e :: (subLoop rest).reports,
            (subLoop rest).closedLoop⟩
      ∧ subLoop (.ok false :: rest) = ⟨0, [], true⟩
      ∧ (subscribeLogs lp outs).2 = ((subLoop outs).closedLoop && lp) := by
  intro rest outs e lp
  exact ⟨rfl, rfl, rfl, rfl, rfl, rfl⟩

/-- Claim C4: a single drain returns at most 500 entries, returns the
oldest entries in insertion order with exactly the undrained suffix
left behind (drained prefix ++ remainder = original buffer), returns
nothing precisely when the buffer is empty, and repeated drains of a
buffer receiving no further writes eventually empty it. -/
theorem getLinesDrainContract :
    ∀ l : List Data,
      ((getLines l).1.getD []).length ≤ 500
      ∧ ((getLines l).1.getD []) ++ (getLines l).2 = l
      ∧ (getLines l).1.isNone = l.isEmpty
      ∧ getLines [] = (none, [])
      ∧ ∃ n, drainN n l = [] := by
  intro l
  by_cases h : l = []
  · subst h
    exact ⟨by simp [getLines], by simp [getLines], by simp [getLines], rfl,
      0, rfl⟩
  · have hl : l.length ≠ 0 := by
      simpa [List.length_eq_zero] using h
    refine ⟨?_, ?_, ?_, rfl, l.length, drainN_exhaust l.length l le_rfl⟩
    · unfold getLines
      rw [if_neg hl]
      simp only [Option.getD_some, List.length_take]
      split <;> omega
    · unfold getLines
      rw [if_neg hl]
      simp [List.take_append_drop]
    · unfold getLines
      rw [if_neg hl]
      cases l with
      | nil => exact absurd rfl h
      | cons a as => simp [List.isEmpty]

/-- Claim C6 (failing input): when the batch submission returns a
transport-level error, the forwarder logs `KinesisPutRecordsError`
but then falls through — without a `continue` — to scan `res.Records`
with the result absent; the embedded tick evaluates to `none`
(a panic) instead of dropping the batch and proceeding. -/
theorem streamLogsTickTransportCrash :
    streamLogsTick ["log line"] (fun _ => .err "connection reset") = none := rfl

/-- Claim C8: when `InspectContainer` fails during `create` handling,
the handler logs the inspection error and returns with the Registry
untouched for that id: the state (env map and sink-handle map) is
returned unchanged, no sink is opened, and no app event is emitted —
and the handler performs no retry (it returns this single outcome). -/
theorem handleCreateInspectError :
    ∀ (st : MState) (id e : String) (aws : Except String LoggerHandle),
      handleCreate st id (.err e) aws = some ⟨st, true, false, none⟩ := by
  intro st id e aws
  rfl

lemma splitTsLine_noparse (now : Timestamp) (line : String)
    (h : ∀ p0 p1, splitN2 line ' ' = [p0, p1] → parseRFC3339Nano p0 = none) :
    (splitTsLine now line).1 = now ∧ (splitTsLine now line).2.1 = line := by
  unfold splitTsLine
  cases hsp : splitN2 line ' ' with
  | nil => simp
  | cons p0 tl =>
    cases tl with
    | nil => simp
    | cons p1 tl2 =>
      cases tl2 with
      | nil =>
        dsimp only
        rw [h p0 p1 hsp]
        exact ⟨rfl, rfl⟩
      | cons x xs => simp

lemma routeLine_fields (now : Timestamp) (env : EnvMap) (lp : Bool)
    (id line : String) (r : RouteResult)
    (h : routeLine now env lp id line = some r) :
    r.tsUsed = (splitTsLine now line).1 ∧
      r.msgLine = (splitTsLine now line).2.1 := by
  simp only [routeLine] at h
  split at h
  · exact absurd h (by simp)
  · injection h with h1
    subst h1
    exact ⟨rfl, rfl⟩

set_option maxRecDepth 10000 in
/-- Claim C3: routing the line
`2024-01-02T03:04:05.123456789Z hello` for container
`abcdef012345678` with captured env `PROCESS=web`, `RELEASE=R1`
splits off and uses the RFC3339-nanoseconds timestamp
`2024-01-02T03:04:05.123456789Z` (whatever the receipt time `now`
was) and produces the formatted line `web:R1/abcdef012345 hello`;
and for any line whose leading space-separated token does not parse
as an RFC3339-nanoseconds timestamp, the full text is preserved
unsplit and the receipt time `now` is used as the timestamp. -/
theorem parserRouterTimestampAndFallback :
    (∀ now : Timestamp,
      routeLine now [("PROCESS", "web"), ("RELEASE", "R1")] true
        "abcdef012345678" "2024-01-02T03:04:05.123456789Z hello" =
        some ⟨⟨2024, 1, 2, 3, 4, 5, 123456789, 0⟩, "hello", "",
          "web:R1/abcdef012345 hello", false,
          some ⟨"abcdef012345678", "web:R1/abcdef012345 hello",
            ⟨2024, 1, 2, 3, 4, 5, 123456789, 0⟩⟩, none⟩)
    ∧ ∀ (now : Timestamp) (env : EnvMap) (lp : Bool) (id line : String)
        (r : RouteResult),
        (∀ p0 p1, splitN2 line ' ' = [p0, p1] →
          parseRFC3339Nano p0 = none) →
        routeLine now env lp id line = some r →
        r.tsUsed = now ∧ r.msgLine = line := by
  constructor
  · intro now
    rfl
  · intro now env lp id line r hnp h
    have hf := splitTsLine_noparse now line hnp
    have hr := routeLine_fields now env lp id line r h
    exact ⟨hr.1.trans hf.1, hr.2.trans hf.2⟩

set_option maxRecDepth 10000 in
/-- Witness for the fallback half of C3 at a concrete input whose
leading token is not a timestamp. -/
theorem parserRouterTimestampAndFallback_witness :
    (⟨⟨2020, 1, 1, 0, 0, 0, 0, 0⟩, "no timestamp here", "",
        ":/abcdef012345 no timestamp here", true, none, none⟩ :
      RouteResult).tsUsed = ⟨2020, 1, 1, 0, 0, 0, 0, 0⟩ ∧
    (⟨⟨2020, 1, 1, 0, 0, 0, 0, 0⟩, "no timestamp here", "",
        ":/abcdef012345 no timestamp here", true, none, none⟩ :
      RouteResult).msgLine = "no timestamp here" := by
  refine parserRouterTimestampAndFallback.2 ⟨2020, 1, 1, 0, 0, 0, 0, 0⟩ []
    false "abcdef012345" "no timestamp here" _ ?_ (by decide)
  intro p0 p1 hp
  have hsp : splitN2 "no timestamp here" ' ' = ["no", "timestamp here"] := by
    decide
  rw [hsp] at hp
  injection hp with h1 h2
  subst h1
  decide

set_option maxRecDepth 10000 in
/-- Claim C7: with `APP` absent the app name is resolved by splitting
`LOG_GROUP` (or, when `LOG_GROUP` is empty, `KINESIS`) on dashes
and, when more than two segments result, joining all but the last
two; `LOG_GROUP = convox-httpd-LogGroup-1KIJO8SS9F3Q9` resolves to
`convox-httpd`; a present `APP` is used unchanged. -/
theorem resolveAppFallback :
    resolveApp [("LOG_GROUP", "convox-httpd-LogGroup-1KIJO8SS9F3Q9")] =
      "convox-httpd"
    ∧ resolveApp [("KINESIS", "myapp-staging-Kinesis-L6MUKT1VH451")] =
      "myapp-staging"
    ∧ (∀ env : EnvMap, envGet env "APP" ≠ "" →
        resolveApp env = envGet env "APP")
    ∧ (∀ env : EnvMap,
        envGet env "APP" = "" →
        2 < (splitOnChar '-'
          (if envGet env "LOG_GROUP" = "" then envGet env "KINESIS"
           else envGet env "LOG_GROUP")).length →
        resolveApp env =
          joinWith "-"
            ((splitOnChar '-'
              (if envGet env "LOG_GROUP" = "" then envGet env "KINESIS"
               else envGet env "LOG_GROUP")).take
              ((splitOnChar '-'
                (if envGet env "LOG_GROUP" = "" then envGet env "KINESIS"
                 else envGet env "LOG_GROUP")).length - 2))) := by
  refine ⟨by decide, by decide, ?_, ?_⟩
  · intro env h
    simp only [resolveApp]
    rw [if_neg h]
  · intro env h1 h2
    simp only [resolveApp]
    rw [if_pos h1, if_pos h2]

/-- Witness for C7's conditional parts: explicit `APP` wins, and the
dash-split fallback applies when `APP` is absent. -/
theorem resolveAppFallback_witness :
    resolveApp [("APP", "myapp"), ("LOG_GROUP", "g-h-i-j")] =
      envGet [("APP", "myapp"), ("LOG_GROUP", "g-h-i-j")] "APP" ∧
    resolveApp [("LOG_GROUP", "a-b-c-d")] =
      joinWith "-"
        ((splitOnChar '-'
          (if envGet [("LOG_GROUP", "a-b-c-d")] "LOG_GROUP" = ""
           then envGet [("LOG_GROUP", "a-b-c-d")] "KINESIS"
           else envGet [("LOG_GROUP", "a-b-c-d")] "LOG_GROUP")).take
          ((splitOnChar '-'
            (if envGet [("LOG_GROUP", "a-b-c-d")] "LOG_GROUP" = ""
             then envGet [("LOG_GROUP", "a-b-c-d")] "KINESIS"
             else envGet [("LOG_GROUP", "a-b-c-d")] "LOG_GROUP")).length
            - 2)) := by
  exact ⟨resolveAppFallback.2.2.1 _ (by decide),
    resolveAppFallback.2.2.2 _ (by decide) (by decide)⟩

lemma sliceTo_of_le (id : String) (h : 12 ≤ id.length) :
    sliceTo id 12 = some ⟨id.data.take 12⟩ := by
  have h2 : 12 ≤ id.data.length := h
  unfold sliceTo
  rw [if_pos h2]

lemma data_length_ne_zero (line : String) (h : line ≠ "") :
    line.data.length ≠ 0 := by
  intro h0
  apply h
  cases line with
  | mk d =>
    have hd : d = [] := List.eq_nil_of_length_eq_zero h0
    subst hd
    decide

lemma dropLastChar_nonempty (line : String) (h : line ≠ "") :
    dropLastChar line = some ⟨line.data.dropLast⟩ := by
  unfold dropLastChar
  rw [if_neg (data_length_ne_zero line h)]

lemma dropLastChar_push (l : String) (c : Char) :
    dropLastChar (l.push c) = some l := by
  show (if (l.data ++ [c]).length = 0 then none
        else some ⟨(l.data ++ [c]).dropLast⟩) = some l
  rw [if_neg (by simp)]
  rw [List.dropLast_concat]

lemma routeLine_isSome (now : Timestamp) (env : EnvMap) (lp : Bool)
    (id line : String) (h : 12 ≤ id.length) :
    (routeLine now env lp id line).isSome = true := by
  simp only [routeLine]
  rw [sliceTo_of_le id h]
  rfl

set_option maxRecDepth 10000 in
/-- Claim C10 (implicit): the message-formatting paths —
create/die/kill/oom/stop handlers and the line parser — slice
`id[0:12]` with no length guard, and the parser slices
`line[0:len(line)-1]` with no emptiness guard; they are well-defined
exactly under the preconditions `12 ≤ |id|` and a non-empty line
(the final character — a trailing newline when present, otherwise
the last content character — is always dropped), and a shorter id or
an empty line reaches the embedded out-of-bounds (`none`) branch. -/
theorem shortIdAndEmptyLinePanics :
    (∀ id : String, 12 ≤ id.length → (sliceTo id 12).isSome = true)
    ∧ (∀ line : String, line ≠ "" → (dropLastChar line).isSome = true)
    ∧ (∀ (l : String) (c : Char), dropLastChar (l.push c) = some l)
    ∧ (∀ (st : MState) (id : String), 12 ≤ id.length →
        (handleDie st id).isSome = true ∧ (handleKill st id).isSome = true ∧
        (handleOom st id).isSome = true ∧ (handleStop st id).isSome = true)
    ∧ (∀ (st : MState) (entries : List String)
        (aws : Except String LoggerHandle) (id : String), 12 ≤ id.length →
        (handleCreate st id (.ok entries) aws).isSome = true)
    ∧ (∀ (now : Timestamp) (env : EnvMap) (lp : Bool) (id rawLine : String),
        12 ≤ id.length → rawLine ≠ "" →
        (parseAndForwardLine now env lp id rawLine).isSome = true)
    ∧ (∀ st : MState,
        handleDie st "abc" = none ∧ handleKill st "abc" = none ∧
        handleOom st "abc" = none ∧ handleStop st "abc" = none)
    ∧ (∀ (st : MState) (entries : List String)
        (aws : Except String LoggerHandle),
        handleCreate st "abc" (.ok entries) aws = none)
    ∧ (∀ (now : Timestamp) (env : EnvMap) (lp : Bool) (id : String),
        parseAndForwardLine now env lp id "" = none)
    ∧ (∀ (now : Timestamp) (env : EnvMap) (lp : Bool),
        parseAndForwardLine now env lp "abc" "hi\n" = none) := by
  refine ⟨?_, ?_, dropLastChar_push, ?_, ?_, ?_, ?_, ?_, ?_, ?_⟩
  · intro id h
    rw [sliceTo_of_le id h]
    rfl
  · intro line h
    rw [dropLastChar_nonempty line h]
    rfl
  · intro st id h
    refine ⟨?_, ?_, ?_, ?_⟩ <;>
      first
        | (unfold handleDie; rw [sliceTo_of_le id h]
           cases getEnv st id with
           | none => rfl
           | some env => dsimp only; split <;> rfl)
        | (unfold handleKill; rw [sliceTo_of_le id h]
           cases getEnv st id with
           | none => rfl
           | some env => dsimp only; split <;> rfl)
        | (unfold handleOom; rw [sliceTo_of_le id h]
           cases getEnv st id with
           | none => rfl
           | some env => dsimp only; split <;> rfl)
        | (unfold handleStop; rw [sliceTo_of_le id h]
           cases getEnv st id with
           | none => rfl
           | some env => dsimp only; split <;> rfl)
  · intro st entries aws id h
    simp only [handleCreate]
    rw [sliceTo_of_le id h]
    split <;> simp_all
  · intro now env lp id rawLine h12 hne
    unfold parseAndForwardLine
    rw [dropLastChar_nonempty rawLine hne]
    exact routeLine_isSome now env lp id _ h12
  · intro st
    exact ⟨rfl, rfl, rfl, rfl⟩
  · intro st entries aws
    rfl
  · intro now env lp id
    rfl
  · intro now env lp
    rfl

/-- Witness for C10's conditional parts at concrete inputs. -/
theorem shortIdAndEmptyLinePanics_witness :
    (sliceTo "abcdefabcdef" 12).isSome = true ∧
    (dropLastChar "x").isSome = true ∧
    (handleDie initialMonitor "abcdefabcdef").isSome = true ∧
    (handleCreate initialMonitor "abcdefabcdef" (.ok ["A=1"])
      (Except.ok 1)).isSome = true ∧
    (parseAndForwardLine ⟨2020, 1, 1, 0, 0, 0, 0, 0⟩ [] false
      "abcdefabcdef" "hello\n").isSome = true := by
  refine ⟨shortIdAndEmptyLinePanics.1 "abcdefabcdef" (by decide),
    shortIdAndEmptyLinePanics.2.1 "x" (by decide),
    (shortIdAndEmptyLinePanics.2.2.2.1 initialMonitor "abcdefabcdef"
      (by decide)).1,
    ?_,
    shortIdAndEmptyLinePanics.2.2.2.2.2.1 ⟨2020, 1, 1, 0, 0, 0, 0, 0⟩ []
      false "abcdefabcdef" "hello\n" (by decide) (by decide)⟩
  exact shortIdAndEmptyLinePanics.2.2.2.2.1 initialMonitor ["A=1"]
    (Except.ok 1) "abcdefabcdef" (by decide)

lemma getLines_nonempty (l : List Data) (h : l ≠ []) :
    getLines l =
      (some (l.take (min 500 l.length)), l.drop (min 500 l.length)) := by
  have hl : l.length ≠ 0 := by
    simpa [List.length_eq_zero] using h
  have hm : (if l.length > 500 then 500 else l.length) = min 500 l.length := by
    split <;> omega
  unfold getLines
  rw [if_neg hl, hm]

lemma recordErrLoop_count :
    ∀ (rs : List KRecord) (cnt : Nat) (msg : String) (c : Nat) (m : String),
      recordErrLoop rs cnt msg = some (c, m) →
      c = cnt + (rs.filter (fun r => r.errorCode.isSome)).length := by
  intro rs
  induction rs with
  | nil =>
    intro cnt msg c m h
    simp only [recordErrLoop] at h
    injection h with h1
    injection h1 with h2 h3
    simp [← h2]
  | cons r rest ih =>
    intro cnt msg c m h
    simp only [recordErrLoop] at h
    cases hc : r.errorCode with
    | none =>
      rw [hc] at h
      have := ih cnt msg c m h
      simp [List.filter, hc, this]
    | some code =>
      rw [hc] at h
      cases hm2 : r.errorMessage with
      | none =>
        rw [hm2] at h
        cases h
      | some mm =>
        rw [hm2] at h
        have := ih (cnt + 1) (code ++ " - " ++ mm) c m h
        simp only [List.filter, hc, Option.isSome_some, List.length_cons]
        omega

/-- Claim C5: when a submitted batch is accepted and `k` of its `n`
records come back flagged with error codes, the tick counts exactly
`k` failures and reports `n` as the total record count, and the
buffer left for later ticks is exactly the undrained suffix — the
failed records are neither re-queued nor ever re-submitted. -/
theorem streamLogsPartialFailureCounts :
    ∀ (buf : List Data) (put : List Data → PutOutcome)
      (records : List KRecord) (t : TickResult),
      buf ≠ [] →
      put (buf.take (min 500 buf.length)) = .ok records →
      streamLogsTick buf put = some t →
      t.errorCount = (records.filter (fun r => r.errorCode.isSome)).length
      ∧ t.total = records.length
      ∧ t.newBuf = buf.drop (min 500 buf.length)
      ∧ t.submitted = some (buf.take (min 500 buf.length)) := by
  intro buf put records t hb hput h
  simp only [streamLogsTick] at h
  rw [getLines_nonempty buf hb] at h
  dsimp only at h
  rw [hput] at h
  dsimp only at h
  cases hrec : recordErrLoop records 0 "" with
  | none =>
    rw [hrec] at h
    cases h
  | some cm =>
    obtain ⟨cnt, msg⟩ := cm
    rw [hrec] at h
    dsimp only at h
    injection h with h1
    subst h1
    have hcount := recordErrLoop_count records 0 "" cnt msg hrec
    exact ⟨by simpa using hcount, rfl, rfl, rfl⟩

/-- Ten submission results, three of them flagged with error codes. -/
def recs10 : List KRecord :=
  [⟨none, none⟩, ⟨some "C2", some "M2"⟩, ⟨none, none⟩, ⟨none, none⟩,
   ⟨some "C5", some "M5"⟩, ⟨none, none⟩, ⟨none, none⟩, ⟨none, none⟩,
   ⟨some "C9", some "M9"⟩, ⟨none, none⟩]

/-- Witness for C5: a tick whose batch comes back with 3 of 10
records flagged counts 3 failures, 10 totals, and leaves the drained
records out of the buffer. -/
theorem streamLogsPartialFailureCounts_witness :
    (⟨[], some ["x"], 3, 10, some "C9 - M9"⟩ : TickResult).errorCount =
      (recs10.filter (fun r => r.errorCode.isSome)).length
    ∧ (⟨[], some ["x"], 3, 10, some "C9 - M9"⟩ : TickResult).total =
      recs10.length
    ∧ (⟨[], some ["x"], 3, 10, some "C9 - M9"⟩ : TickResult).newBuf =
      (["x"] : List Data).drop (min 500 (["x"] : List Data).length)
    ∧ (⟨[], some ["x"], 3, 10, some "C9 - M9"⟩ : TickResult).submitted =
      some ((["x"] : List Data).take (min 500 (["x"] : List Data).length)) := by
  exact streamLogsPartialFailureCounts ["x"] (fun _ => .ok recs10) recs10
    ⟨[], some ["x"], 3, 10, some "C9 - M9"⟩ (by decide) rfl (by decide)

/-- Claim C9: the Log Subscriber is never started for the agent's own
container — every id for which the startup inventory pass starts a
subscription belongs to a listed container whose image fails the
agent-image test (the agent-image container is skipped and only
recorded as the agent identity), and the live `start` handler
subscribes only when the id differs from the recorded agent id and
the captured env declares a `LOG_GROUP`. -/
theorem agentContainerNeverSubscribed :
    (∀ (st : MState) (cs : List ContainerSummary)
      (inspect : String → InspectResult)
      (aws : String → Except String LoggerHandle) (st2 : MState)
      (subs : List String),
      handleRunning st cs inspect aws = some (st2, subs) →
      ∀ id ∈ subs, ∃ c ∈ cs, c.id = id ∧ isAgentImage c.image = false)
    ∧ (∀ (st : MState) (id : String), handleStartSubscribes st id = true →
        id ≠ st.agentId ∧
        ∃ env, getEnv st id = some env ∧ envGet env "LOG_GROUP" ≠ "") := by
  constructor
  · intro st cs
    induction cs generalizing st with
    | nil =>
      intro inspect aws st2 subs h id hid
      simp only [handleRunning] at h
      injection h with h1
      injection h1 with h2 h3
      subst h3
      exact absurd hid (by simp)
    | cons c rest ih =>
      intro inspect aws st2 subs h id hid
      simp only [handleRunning] at h
      by_cases hag : isAgentImage c.image = true
      · rw [if_pos hag] at h
        obtain ⟨c2, hc2, hcid, hcimg⟩ := ih _ _ _ _ _ h id hid
        exact ⟨c2, List.mem_cons_of_mem c hc2, hcid, hcimg⟩
      · rw [if_neg hag] at h
        cases hcr : handleCreate st c.id (inspect c.id) (aws c.id) with
        | none =>
          rw [hcr] at h
          cases h
        | some r =>
          rw [hcr] at h
          dsimp only at h
          cases hrest : handleRunning r.state rest inspect aws with
          | none =>
            rw [hrest] at h
            cases h
          | some p =>
            obtain ⟨stR, subsR⟩ := p
            rw [hrest] at h
            dsimp only at h
            injection h with hp
            injection hp with h1 h2
            subst h2
            rcases List.mem_append.mp hid with hin | hin
            · have hcid : id = c.id := by
                by_cases hsub : handleStartSubscribes r.state c.id = true
                · rw [if_pos hsub] at hin
                  simpa using hin
                · rw [if_neg hsub] at hin
                  simp at hin
              exact ⟨c, List.mem_cons_self c rest, hcid.symm, by
                simpa using hag⟩
            · obtain ⟨c2, hc2, h3, h4⟩ := ih _ _ _ _ _ hrest id hin
              exact ⟨c2, List.mem_cons_of_mem c hc2, h3, h4⟩
  · intro st id h
    unfold handleStartSubscribes at h
    split at h
    · next hne =>
      cases hg : getEnv st id with
      | none =>
        rw [hg] at h
        cases h
      | some env =>
        rw [hg] at h
        dsimp only at h
        exact ⟨hne, env, rfl, bne_iff_ne.mp h⟩
    · exact absurd h (by simp)

/-- A monitor state in which one non-agent container has a captured
env declaring a `LOG_GROUP`. -/
def wStateC9 : MState :=
  { envs := [("web1web1web1web1", [("LOG_GROUP", "g")])], loggers := [],
    agentId := "agent1agent1agent1",
    agentImage := "goodeggs/convox-agent:0.73", agentVersion := "0.73" }

set_option maxRecDepth 10000 in
/-- Witness for C9 at a concrete inventory containing the agent's own
container and one web container, and a concrete start decision. -/
theorem agentContainerNeverSubscribed_witness :
    (∃ c ∈ [(⟨"agent1agent1agent1", "goodeggs/convox-agent:0.73"⟩ :
        ContainerSummary), ⟨"web1web1web1web1", "httpd:2.4"⟩],
      c.id = "web1web1web1web1" ∧ isAgentImage c.image = false)
    ∧ ("web1web1web1web1" ≠ wStateC9.agentId ∧
        ∃ env, getEnv wStateC9 "web1web1web1web1" = some env ∧
          envGet env "LOG_GROUP" ≠ "") := by
  constructor
  · exact agentContainerNeverSubscribed.1 initialMonitor
      [⟨"agent1agent1agent1", "goodeggs/convox-agent:0.73"⟩,
       ⟨"web1web1web1web1", "httpd:2.4"⟩]
      (fun _ => .ok ["LOG_GROUP=g-a-b-c", "PROCESS=web"]) (fun _ => .ok 7)
      { envs := [("web1web1web1web1", [("PROCESS", "web"),
          ("LOG_GROUP", "g-a-b-c")])],
        loggers := [("web1web1web1web1", 7)],
        agentId := "agent1agent1agent1",
        agentImage := "goodeggs/convox-agent:0.73", agentVersion := "0.73" }
      ["web1web1web1web1"] (by decide) "web1web1web1web1" (by decide)
  · exact agentContainerNeverSubscribed.2 wStateC9 "web1web1web1web1"
      (by decide)

lemma handleCreate_ok_envs (st : MState) (id : String)
    (entries : List String) (aws : Except String LoggerHandle)
    (r : CreateResult)
    (h : handleCreate st id (.ok entries) aws = some r) :
    r.state.envs = (id, parseEnvEntries entries) :: st.envs := by
  simp only [handleCreate] at h
  split at h
  · cases h
  · injection h with h1
    subst h1
    split
    · split <;> rfl
    · rfl

lemma lookupA_cons_ne {α : Type} (k key : String) (v : α)
    (l : List (String × α)) (h : k ≠ key) :
    lookupA ((k, v) :: l) key = lookupA l key := by
  show (if k = key then some v else lookupA l key) = lookupA l key
  rw [if_neg h]

lemma dispatchStep_lookup (st st2 : MState) (s : TraceStep) (id : String)
    (h : dispatchStep st s = some st2)
    (hne : s.event.kind = .create → s.event.id ≠ id) :
    lookupA st2.envs id = lookupA st.envs id := by
  simp only [dispatchStep] at h
  split at h
  · next heq =>
    have hneid := hne heq
    cases hins : s.inspect with
    | err e =>
      rw [hins] at h
      have h3 : (some st : Option MState) = some st2 := h
      injection h3 with h4
      rw [← h4]
    | ok entries =>
      rw [hins] at h
      cases hcr : handleCreate st s.event.id (.ok entries) s.aws with
      | none =>
        rw [hcr] at h
        cases h
      | some r =>
        rw [hcr] at h
        have h3 : some r.state = some st2 := h
        injection h3 with h4
        rw [← h4, handleCreate_ok_envs st s.event.id entries s.aws r hcr]
        exact lookupA_cons_ne s.event.id id (parseEnvEntries entries)
          st.envs hneid
  all_goals
    injection h with h1
    rw [← h1]

lemma dispatchEvents_lookup :
    ∀ (post : List TraceStep) (stA stB : MState) (id : String),
      dispatchEvents stA post = some stB →
      (∀ s ∈ post, s.event.kind = .create → s.event.id ≠ id) →
      lookupA stB.envs id = lookupA stA.envs id := by
  intro post
  induction post with
  | nil =>
    intro stA stB id h _
    injection h with h1
    rw [← h1]
  | cons s rest ih =>
    intro stA stB id h hne
    simp only [dispatchEvents] at h
    cases hds : dispatchStep stA s with
    | none =>
      rw [hds] at h
      cases h
    | some st1 =>
      rw [hds] at h
      have hstep := dispatchStep_lookup stA st1 s id hds
        (hne s (List.mem_cons_self s rest))
      have hrest := ih st1 stB id h
        (fun s2 hs2 => hne s2 (List.mem_cons_of_mem s hs2))
      exact hrest.trans hstep

/-- Claim C1: `create` is handled synchronously on the dispatch loop,
so for a container whose `create` succeeded (inspect returned its
config env, which `setEnv` stored), the environment lookup performed
by any handler dispatched later — in particular the `start`
handler's `getEnv`, whenever it actually runs — returns `some` of
that captured env (the lookup is never the empty/missing result),
as long as no further `create` for the same container intervenes. -/
theorem createEnvVisibleToStart :
    ∀ (st st1 stMid st2 : MState) (pre post : List TraceStep) (id : String)
      (entries : List String) (aws : Except String LoggerHandle),
      dispatchEvents st pre = some st1 →
      dispatchStep st1 ⟨⟨id, .create⟩, .ok entries, aws⟩ = some stMid →
      dispatchEvents stMid post = some st2 →
      (∀ s ∈ post, s.event.kind = .create → s.event.id ≠ id) →
      getEnv st2 id = some (parseEnvEntries entries) := by
  intro st st1 stMid st2 pre post id entries aws hpre hc hpost hne
  have h1 : lookupA st2.envs id = lookupA stMid.envs id :=
    dispatchEvents_lookup post stMid st2 id hpost hne
  simp only [dispatchStep] at hc
  cases hcr : handleCreate st1 id (.ok entries) aws with
  | none =>
    rw [hcr] at hc
    cases hc
  | some r =>
    rw [hcr] at hc
    have hc2 : some r.state = some stMid := hc
    injection hc2 with hc3
    have henvs := handleCreate_ok_envs st1 id entries aws r hcr
    show lookupA st2.envs id = some (parseEnvEntries entries)
    rw [h1, ← hc3, henvs]
    unfold lookupA
    rw [if_pos rfl]

set_option maxRecDepth 10000 in
/-- Witness for C1: a successful `create` followed by a `start` event
for the same container; the lookup at the later state returns the
captured env. -/
theorem createEnvVisibleToStart_witness :
    getEnv { envs := [("abcdefabcdef", [("PROCESS", "web")])],
             loggers := [], agentId := "unknown",
             agentImage := "convox/agent:dev", agentVersion := "dev" }
        "abcdefabcdef" =
      some (parseEnvEntries ["PROCESS=web"]) := by
  exact createEnvVisibleToStart initialMonitor initialMonitor
    { envs := [("abcdefabcdef", [("PROCESS", "web")])], loggers := [],
      agentId := "unknown", agentImage := "convox/agent:dev",
      agentVersion := "dev" }
    { envs := [("abcdefabcdef", [("PROCESS", "web")])], loggers := [],
      agentId := "unknown", agentImage := "convox/agent:dev",
      agentVersion := "dev" }
    [] [⟨⟨"abcdefabcdef", .start⟩, .ok [], .ok 1⟩] "abcdefabcdef"
    ["PROCESS=web"] (.ok 1) rfl (by decide) (by decide) (by decide)

end Agent
